import Mathlib

/-!
Shallow embedding of the `dht` single-wire thermometer driver
(`src/dht/thermometer.go`, `src/unnamed/part_000`, `src/unnamed/part_001`).

The pin is modelled as its trace of sampled logic levels: a function
`tr : ℕ → Bool` giving the level returned by the n-th call to `p.Get()`.
Every function that reads the pin threads an explicit read position.
Machine bytes are `ℕ` with explicit `% 256`; the `counter`/`uint16` tick
counts are `ℕ` (they never exceed `timeout`, so no wraparound occurs).
Out-of-range slice indexing (a Go runtime panic) is modelled as `none`.
-/

namespace Dht

/-- Modelled from the spec: the error kinds of §7 (the error values
`NoSignalError`, `NoDataError`, `ChecksumError`, `UninitializedDataError`
are referenced by `src/dht/thermometer.go` but declared in a file that is
not under `src/`). -/
inductive DhtError where
  | NoSignalError
  | NoDataError
  | ChecksumError
  | UninitializedDataError
  deriving DecidableEq, Repr

instance instDecEqExcept {ε α : Type} [DecidableEq ε] [DecidableEq α] :
    DecidableEq (Except ε α)
  | .error e, .error f =>
    if h : e = f then .isTrue (congrArg Except.error h)
    else .isFalse fun hc => h (Except.error.inj hc)
  | .error _, .ok _ => .isFalse fun hc => Except.noConfusion hc
  | .ok _, .error _ => .isFalse fun hc => Except.noConfusion hc
  | .ok a, .ok b =>
    if h : a = b then .isTrue (congrArg Except.ok h)
    else .isFalse fun hc => h (Except.ok.inj hc)

/-- Modelled from the spec: the fixed iteration ceiling `timeout` of the
bounded busy-wait (§4.1). Its numeric value is target-clock specific and its
declaring file is not under `src/`; the development only uses that it is a
fixed positive constant, here 100. -/
def timeout : ℕ := 100

/-- The busy-wait loop body of `expectChange` (`src/unnamed/part_000`):
`for ; p.Get() == oldState && counter != timeout; counter++ {}`.
`fuel` bounds the recursion; `c` is the current counter value.  The loop
increments the counter at most `timeout` times, so any `fuel ≥ timeout + 1 - c`
makes the fuel bound unreachable. -/
def ecLoop (tr : ℕ → Bool) (old : Bool) (pos : ℕ) : ℕ → ℕ → ℕ
  | 0, c => c
  | fuel + 1, c =>
    if tr (pos + c) = old ∧ c ≠ timeout then ecLoop tr old pos fuel (c + 1) else c

/-- `expectChange` of `src/unnamed/part_000`: count samples while the pin
stays at `old`, up to the `timeout` ceiling.  The n-th sample of this call
reads `tr (pos + n)`. -/
def expectChange (tr : ℕ → Bool) (pos : ℕ) (old : Bool) : ℕ :=
  ecLoop tr old pos (timeout + 1) 0

theorem ecLoop_le (tr : ℕ → Bool) (old : Bool) (pos : ℕ) :
    ∀ fuel c, c ≤ timeout → ecLoop tr old pos fuel c ≤ timeout := by
  intro fuel
  induction fuel with
  | zero => intro c hc; exact hc
  | succ n ih =>
    intro c hc
    unfold ecLoop
    split
    · rename_i h
      exact ih (c + 1) (Nat.lt_of_le_of_ne hc h.2)
    · exact hc

theorem ecLoop_timeout_iff (tr : ℕ → Bool) (old : Bool) (pos : ℕ) :
    ∀ fuel c, c ≤ timeout → timeout ≤ c + fuel →
      (ecLoop tr old pos fuel c = timeout ↔
        ∀ c', c ≤ c' → c' < timeout → tr (pos + c') = old) := by
  intro fuel
  induction fuel with
  | zero =>
    intro c hc hf
    have : c = timeout := le_antisymm hc (by omega)
    subst this
    simp [ecLoop]
    intro c' h1 h2; omega
  | succ n ih =>
    intro c hc hf
    unfold ecLoop
    split
    · rename_i h
      have hlt : c < timeout := Nat.lt_of_le_of_ne hc h.2
      rw [ih (c + 1) hlt (by omega)]
      constructor
      · intro hall c' h1 h2
        rcases Nat.eq_or_lt_of_le h1 with rfl | h1'
        · exact h.1
        · exact hall c' h1' h2
      · intro hall c' h1 h2
        exact hall c' (by omega) h2
    · rename_i h
      constructor
      · intro hc' c' h1 h2
        omega
      · intro hall
        by_contra hne
        have hlt : c < timeout := Nat.lt_of_le_of_ne hc hne
        exact h ⟨hall c le_rfl hlt, hne⟩

theorem ecLoop_fuel_stable (tr : ℕ → Bool) (old : Bool) (pos : ℕ) :
    ∀ fuel c, c ≤ timeout → timeout ≤ c + fuel →
      ecLoop tr old pos (fuel + 1) c = ecLoop tr old pos fuel c := by
  intro fuel
  induction fuel with
  | zero =>
    intro c hc hf
    have : c = timeout := le_antisymm hc (by omega)
    subst this
    simp [ecLoop]
  | succ n ih =>
    intro c hc hf
    conv_lhs => unfold ecLoop
    conv_rhs => unfold ecLoop
    split
    · rename_i h
      exact ih (c + 1) (Nat.lt_of_le_of_ne hc h.2) (by omega)
    · rfl

/-- C9: for every pin trace, the pulse sampler `expectChange` returns a
counter that is at most the `timeout` ceiling; it returns exactly the ceiling
iff the pin never departed from the starting level within the bounded loop;
and any fuel of at least `timeout + 1` loop iterations gives the same result,
so the loop terminates within the bound and never blocks indefinitely. -/
theorem expectChange_bounded (tr : ℕ → Bool) (pos : ℕ) (old : Bool) :
    expectChange tr pos old ≤ timeout
    ∧ (expectChange tr pos old = timeout ↔ ∀ c, c < timeout → tr (pos + c) = old)
    ∧ (∀ fuel, timeout + 1 ≤ fuel → ecLoop tr old pos fuel 0 = expectChange tr pos old) := by
  refine ⟨ecLoop_le tr old pos _ 0 (Nat.zero_le _), ?_, ?_⟩
  · rw [expectChange, ecLoop_timeout_iff tr old pos (timeout + 1) 0 (Nat.zero_le _) (by omega)]
    constructor
    · intro h c hc; exact h c (Nat.zero_le _) hc
    · intro h c _ hc; exact h c hc
  · intro fuel hf
    induction fuel with
    | zero => omega
    | succ n ih =>
      rcases Nat.lt_or_ge n (timeout + 1) with h | h
      · have : n = timeout := by omega
        subst this; rfl
      · rw [ecLoop_fuel_stable tr old pos n 0 (Nat.zero_le _) (by omega)]
        exact ih h

theorem expectChange_bounded_witness :
    timeout + 1 ≤ timeout + 2
    ∧ ecLoop (fun _ => true) true 0 (timeout + 2) 0 = expectChange (fun _ => true) 0 true :=
  ⟨by omega, (expectChange_bounded (fun _ => true) 0 true).2.2 (timeout + 2) (by omega)⟩

/-- `checksum` of `src/unnamed/part_000`: the stored checksum is the 5th byte. -/
def checksum (buf : List ℕ) : ℕ := buf.getD 4 0

/-- `computeChecksum` of `src/unnamed/part_000`: `buf[0]+buf[1]+buf[2]+buf[3]`
in `uint8` arithmetic (each addition wraps modulo 256). -/
def computeChecksum (buf : List ℕ) : ℕ :=
  (((buf.getD 0 0 + buf.getD 1 0) % 256 + buf.getD 2 0) % 256 + buf.getD 3 0) % 256

/-- `isValid` of `src/unnamed/part_000`. -/
def isValid (buf : List ℕ) : Bool := checksum buf == computeChecksum buf

/-- C4: for every 5-byte buffer, checksum validation succeeds iff `byte[4]`
equals `(byte[0]+byte[1]+byte[2]+byte[3]) mod 256`; the buffer
`[0x32, 0x00, 0x19, 0x00, 0x4B]` validates and changing its last byte to
`0x00` fails validation. -/
theorem isValid_iff :
    (∀ b0 b1 b2 b3 b4 : ℕ, b0 < 256 → b1 < 256 → b2 < 256 → b3 < 256 → b4 < 256 →
      (isValid [b0, b1, b2, b3, b4] = true ↔ b4 = (b0 + b1 + b2 + b3) % 256))
    ∧ isValid [0x32, 0x00, 0x19, 0x00, 0x4B] = true
    ∧ isValid [0x32, 0x00, 0x19, 0x00, 0x00] = false := by
  refine ⟨?_, by decide, by decide⟩
  intro b0 b1 b2 b3 b4 h0 h1 h2 h3 h4
  simp only [isValid, checksum, computeChecksum, beq_iff_eq,
    List.getD_cons_zero, List.getD_cons_succ]
  omega

theorem isValid_iff_witness :
    (0x32 < 256 ∧ 0x00 < 256 ∧ 0x19 < 256 ∧ 0x4B < 256)
    ∧ (isValid [0x32, 0x00, 0x19, 0x00, 0x4B] = true ↔
        0x4B = (0x32 + 0x00 + 0x19 + 0x00) % 256) :=
  ⟨by decide, isValid_iff.1 0x32 0x00 0x19 0x00 0x4B (by decide) (by decide) (by decide)
    (by decide) (by decide)⟩

/-- The body of the decoding loop of `device.extractData`
(`src/dht/thermometer.go`): `for i := uint8(0); i < 40; i++`, reading
`signals[i*2]` and `signals[i*2+1]`, failing with `NoDataError` on the
timeout sentinel, and building `buf[i>>3]` by `<<= 1` then `|= 1` when
`highCycle > lowCycle` (both writes combined: for a byte `old`,
`old <<= 1; old |= b` is `(old * 2) % 256 + b`).  `fuel` counts the
remaining iterations (`fuel + i = 40`); an out-of-range slice access (a Go
runtime panic) is `none`. -/
def extractDataLoop (signals : List ℕ) : ℕ → ℕ → List ℕ → Option (Except DhtError (List ℕ))
  | 0, _, buf => some (.ok buf)
  | fuel + 1, i, buf =>
    match signals[2 * i]?, signals[2 * i + 1]? with
    | some lowCycle, some highCycle =>
      if lowCycle = timeout ∨ highCycle = timeout then some (.error .NoDataError)
      else
        match buf[i / 8]? with
        | some old =>
          extractDataLoop signals fuel (i + 1)
            (buf.set (i / 8) ((old * 2) % 256 + if highCycle > lowCycle then 1 else 0))
        | none => none
    | _, _ => none

/-- `device.extractData` of `src/dht/thermometer.go`: decode the 80 pulse
counts in `signals` into the 5 bytes of `buf`. -/
def extractData (signals buf : List ℕ) : Option (Except DhtError (List ℕ)) :=
  extractDataLoop signals 40 0 buf

/-- Spec-side definition (§4.6): data bit `i` of the pulse sequence is 1
iff the high-phase count strictly exceeds the low-phase count. -/
def specBit (signals : List ℕ) (i : ℕ) : ℕ :=
  if signals.getD (2 * i) 0 < signals.getD (2 * i + 1) 0 then 1 else 0

/-- Spec-side definition (§4.6): pack the `r` bits `f s, …, f (s + r - 1)`
most-significant bit first into one number. -/
def packBits (f : ℕ → ℕ) : ℕ → ℕ → ℕ
  | _, 0 => 0
  | s, r + 1 => packBits f s r * 2 + f (s + r)

/-- Spec-side definition (§4.6): the 5 decoded bytes, byte `j` packing bits
`8 j, …, 8 j + 7` most-significant bit first. -/
def decodedBytes (signals : List ℕ) : List ℕ :=
  (List.range 5).map fun j => packBits (specBit signals) (8 * j) 8

/-- The value byte `j` holds at the start of loop iteration `i`: the bits of
byte `j` decoded so far, packed most-significant bit first. -/
def partialAt (signals : List ℕ) (i j : ℕ) : ℕ :=
  packBits (specBit signals) (8 * j) (min (i - 8 * j) 8)

theorem getElem?_eq_some_getD {l : List ℕ} {k : ℕ} (h : k < l.length) :
    l[k]? = some (l.getD k 0) := by
  rw [List.getD_eq_getElem?_getD, List.getElem?_eq_getElem h]
  rfl

theorem packBits_le (f : ℕ → ℕ) (hf : ∀ m, f m ≤ 1) (s : ℕ) :
    ∀ r, packBits f s r ≤ 2 ^ r - 1 := by
  intro r
  induction r with
  | zero => simp [packBits]
  | succ n ih =>
    have hb := hf (s + n)
    have h2 : (0 : ℕ) < 2 ^ n := Nat.pos_pow_of_pos n (by omega)
    calc packBits f s (n + 1) = packBits f s n * 2 + f (s + n) := rfl
      _ ≤ (2 ^ n - 1) * 2 + 1 := by
          exact Nat.add_le_add (Nat.mul_le_mul_right 2 ih) hb
      _ ≤ 2 ^ (n + 1) - 1 := by
          rw [pow_succ]; omega

theorem specBit_le (signals : List ℕ) (i : ℕ) : specBit signals i ≤ 1 := by
  unfold specBit
  split <;> omega

theorem packBits_testBit (f : ℕ → ℕ) (hf : ∀ m, f m ≤ 1) :
    ∀ r s m, m < r → (packBits f s r).testBit m = decide (f (s + (r - 1 - m)) = 1) := by
  intro r
  induction r with
  | zero => intro s m h; omega
  | succ n ih =>
    intro s m hm
    have hb := hf (s + n)
    match m with
    | 0 =>
      rw [show packBits f s (n + 1) = packBits f s n * 2 + f (s + n) from rfl,
        Nat.testBit_zero]
      have : (packBits f s n * 2 + f (s + n)) % 2 = f (s + n) := by omega
      rw [this]
      simp
    | m + 1 =>
      rw [show packBits f s (n + 1) = packBits f s n * 2 + f (s + n) from rfl,
        Nat.testBit_add_one]
      have hdiv : (packBits f s n * 2 + f (s + n)) / 2 = packBits f s n := by omega
      rw [hdiv, ih s m (by omega), show n - 1 - m = n + 1 - 1 - (m + 1) from by omega]

theorem decodedBytes_length (signals : List ℕ) : (decodedBytes signals).length = 5 := by
  simp [decodedBytes]

theorem decodedBytes_getElem? (signals : List ℕ) (j : ℕ) (hj : j < 5) :
    (decodedBytes signals)[j]? = some (packBits (specBit signals) (8 * j) 8) := by
  unfold decodedBytes
  rw [List.getElem?_map, List.getElem?_range hj]
  rfl

theorem extractDataLoop_ok (signals : List ℕ) (h80 : signals.length = 80)
    (hto : ∀ k, k < 80 → signals.getD k 0 ≠ timeout) :
    ∀ fuel i buf, fuel + i = 40 → buf.length = 5 →
      (∀ j, j < 5 → buf[j]? = some (partialAt signals i j)) →
      extractDataLoop signals fuel i buf = some (.ok (decodedBytes signals)) := by
  intro fuel
  induction fuel with
  | zero =>
    intro i buf hi hlen hinv
    have hi40 : i = 40 := by omega
    subst hi40
    have hbuf : buf = decodedBytes signals := by
      apply List.ext_getElem?
      intro n
      by_cases hn : n < 5
      · rw [hinv n hn, decodedBytes_getElem? signals n hn]
        unfold partialAt
        rw [show min (40 - 8 * n) 8 = 8 from by omega]
      · rw [List.getElem?_eq_none (by omega), List.getElem?_eq_none (by
          rw [decodedBytes_length]; omega)]
    rw [hbuf]
    rfl
  | succ fuel ih =>
    intro i buf hi hlen hinv
    have hi39 : i ≤ 39 := by omega
    have hlow : signals[2 * i]? = some (signals.getD (2 * i) 0) :=
      getElem?_eq_some_getD (by omega)
    have hhigh : signals[2 * i + 1]? = some (signals.getD (2 * i + 1) 0) :=
      getElem?_eq_some_getD (by omega)
    have ht5 : i / 8 < 5 := by omega
    have hbufget : buf[i / 8]? = some (partialAt signals i (i / 8)) := hinv (i / 8) ht5
    unfold extractDataLoop
    rw [hlow, hhigh]
    simp only
    rw [if_neg (by
      push_neg
      exact ⟨hto (2 * i) (by omega), hto (2 * i + 1) (by omega)⟩)]
    rw [hbufget]
    simp only
    apply ih (i + 1) _ (by omega) (by rw [List.length_set]; exact hlen)
    intro j hj
    by_cases hjt : j = i / 8
    · subst hjt
      rw [List.getElem?_set_self (by omega)]
      have hmod : i - 8 * (i / 8) = i % 8 := by omega
      have hold : partialAt signals i (i / 8) = packBits (specBit signals) (8 * (i / 8)) (i % 8) := by
        unfold partialAt
        rw [show min (i - 8 * (i / 8)) 8 = i % 8 from by omega]
      have hle : partialAt signals i (i / 8) ≤ 127 := by
        rw [hold]
        calc packBits (specBit signals) (8 * (i / 8)) (i % 8) ≤ 2 ^ (i % 8) - 1 :=
              packBits_le _ (specBit_le signals) _ _
          _ ≤ 127 := by
              have : 2 ^ (i % 8) ≤ 2 ^ 7 := Nat.pow_le_pow_right (by omega) (by omega)
              omega
      congr 1
      rw [Nat.mod_eq_of_lt (by omega)]
      have hstep : partialAt signals (i + 1) (i / 8) =
          packBits (specBit signals) (8 * (i / 8)) (i % 8) * 2 +
            specBit signals (8 * (i / 8) + i % 8) := by
        unfold partialAt
        rw [show min (i + 1 - 8 * (i / 8)) 8 = i % 8 + 1 from by omega]
        rfl
      rw [hstep, hold, show 8 * (i / 8) + i % 8 = i from by omega]
      unfold specBit
      split <;> rfl
    · rw [List.getElem?_set_ne (fun h => hjt h.symm), hinv j hj]
      unfold partialAt
      rw [show min (i + 1 - 8 * j) 8 = min (i - 8 * j) 8 from by omega]

/-- C5: for every 80-entry pulse sequence with no timeout-sentinel entries,
`extractData` on a fresh 5-byte buffer succeeds and packs the 40 bits
most-significant bit first into 5 bytes with `byte index = i / 8`, bit `i`
being 1 iff the high-phase count `signals[2 i + 1]` strictly exceeds the
low-phase count `signals[2 i]` (equal counts give 0). -/
theorem extractData_decodes (signals : List ℕ) (h80 : signals.length = 80)
    (hto : ∀ k, k < 80 → signals.getD k 0 ≠ timeout) :
    extractData signals (List.replicate 5 0) = some (.ok (decodedBytes signals))
    ∧ ∀ i, i < 40 →
        (((decodedBytes signals).getD (i / 8) 0).testBit (7 - i % 8) = true ↔
          signals.getD (2 * i) 0 < signals.getD (2 * i + 1) 0) := by
  constructor
  · apply extractDataLoop_ok signals h80 hto 40 0 _ (by omega) (by simp)
    intro j hj
    rw [List.getElem?_replicate_of_lt hj]
    unfold partialAt
    rw [show min (0 - 8 * j) 8 = 0 from by omega]
    rfl
  · intro i hi
    have ht5 : i / 8 < 5 := by omega
    have hgd : (decodedBytes signals).getD (i / 8) 0 =
        packBits (specBit signals) (8 * (i / 8)) 8 := by
      rw [List.getD_eq_getElem?_getD, decodedBytes_getElem? signals _ ht5]
      rfl
    rw [hgd, packBits_testBit (specBit signals) (specBit_le signals) 8 _ (7 - i % 8) (by omega),
      show 8 * (i / 8) + (8 - 1 - (7 - i % 8)) = i from by omega]
    unfold specBit
    simp only [decide_eq_true_eq]
    split <;> rename_i hcmp
    · exact iff_of_true rfl hcmp
    · exact iff_of_false (by decide) hcmp

theorem extractData_decodes_witness :
    (List.replicate 80 (1 : ℕ)).length = 80
    ∧ (∀ k, k < 80 → (List.replicate 80 (1 : ℕ)).getD k 0 ≠ timeout)
    ∧ extractData (List.replicate 80 1) (List.replicate 5 0) =
        some (.ok (decodedBytes (List.replicate 80 1))) :=
  ⟨by decide, by decide, (extractData_decodes (List.replicate 80 1) (by decide) (by decide)).1⟩

theorem extractDataLoop_noData (signals : List ℕ) (h80 : signals.length = 80) :
    ∀ fuel i buf, fuel + i = 40 → buf.length = 5 →
      (∃ k, 2 * i ≤ k ∧ k < 80 ∧ signals.getD k 0 = timeout) →
      extractDataLoop signals fuel i buf = some (.error .NoDataError) := by
  intro fuel
  induction fuel with
  | zero =>
    rintro i buf hi hlen ⟨k, h1, h2, h3⟩
    omega
  | succ fuel ih =>
    rintro i buf hi hlen ⟨k, hk1, hk2, hk3⟩
    have hi39 : i ≤ 39 := by omega
    have hlow : signals[2 * i]? = some (signals.getD (2 * i) 0) :=
      getElem?_eq_some_getD (by omega)
    have hhigh : signals[2 * i + 1]? = some (signals.getD (2 * i + 1) 0) :=
      getElem?_eq_some_getD (by omega)
    unfold extractDataLoop
    rw [hlow, hhigh]
    simp only
    by_cases hcase : signals.getD (2 * i) 0 = timeout ∨ signals.getD (2 * i + 1) 0 = timeout
    · rw [if_pos hcase]
    · rw [if_neg hcase]
      push_neg at hcase
      have hknext : 2 * (i + 1) ≤ k := by
        by_contra hcon
        have : k = 2 * i ∨ k = 2 * i + 1 := by omega
        rcases this with h | h <;> rw [h] at hk3
        · exact hcase.1 hk3
        · exact hcase.2 hk3
      rw [List.getElem?_eq_getElem (show i / 8 < buf.length from by omega)]
      simp only
      exact ih (i + 1) _ (by omega) (by rw [List.length_set]; exact hlen) ⟨k, hknext, hk2, hk3⟩

theorem extractDataLoop_isSome (signals : List ℕ) (h80 : signals.length = 80) :
    ∀ fuel i buf, fuel + i = 40 → buf.length = 5 →
      extractDataLoop signals fuel i buf ≠ none := by
  intro fuel
  induction fuel with
  | zero =>
    intro i buf hi hlen
    simp [extractDataLoop]
  | succ fuel ih =>
    intro i buf hi hlen
    have hi39 : i ≤ 39 := by omega
    have hlow : signals[2 * i]? = some (signals.getD (2 * i) 0) :=
      getElem?_eq_some_getD (by omega)
    have hhigh : signals[2 * i + 1]? = some (signals.getD (2 * i + 1) 0) :=
      getElem?_eq_some_getD (by omega)
    unfold extractDataLoop
    rw [hlow, hhigh]
    simp only
    by_cases hcase : signals.getD (2 * i) 0 = timeout ∨ signals.getD (2 * i + 1) 0 = timeout
    · rw [if_pos hcase]
      simp
    · rw [if_neg hcase,
        List.getElem?_eq_getElem (show i / 8 < buf.length from by omega)]
      simp only
      exact ih (i + 1) _ (by omega) (by rw [List.length_set]; exact hlen)

/-- `waitForDataTransmission` of `src/dht/thermometer.go`: three successive
pulse-sampler waits (departure from high, then from low, then from high),
each returning `NoSignalError` on timeout; on success returns the read
position at which the 40-bit payload starts. -/
def waitForDataTransmission (tr : ℕ → Bool) (pos : ℕ) : Except DhtError ℕ :=
  let r1 := expectChange tr pos true
  if r1 = timeout then .error .NoSignalError
  else
    let p1 := pos + r1 + 1
    let r2 := expectChange tr p1 false
    if r2 = timeout then .error .NoSignalError
    else
      let p2 := p1 + r2 + 1
      let r3 := expectChange tr p2 true
      if r3 = timeout then .error .NoSignalError
      else .ok (p2 + r3 + 1)

/-- The body of `device.receiveSignals` (`src/dht/thermometer.go`):
`for ; i < 40; i++ { result[i*2] = expectChange(t.pin, false);
result[i*2+1] = expectChange(t.pin, true) }`.  `fuel + i = 40`; an
out-of-range slice store (a Go runtime panic) is `none`; returns the filled
slice and the next read position. -/
def receiveSignalsLoop (tr : ℕ → Bool) : ℕ → ℕ → ℕ → List ℕ → Option (List ℕ × ℕ)
  | 0, _, pos, result => some (result, pos)
  | fuel + 1, i, pos, result =>
    let r1 := expectChange tr pos false
    let pos1 := pos + r1 + 1
    let r2 := expectChange tr pos1 true
    let pos2 := pos1 + r2 + 1
    if 2 * i < result.length then
      let result1 := result.set (2 * i) r1
      if 2 * i + 1 < result1.length then
        receiveSignalsLoop tr fuel (i + 1) pos2 (result1.set (2 * i + 1) r2)
      else none
    else none

/-- `device.receiveSignals` of `src/dht/thermometer.go` (the interrupt
mask/unmask is a side effect with no bearing on the computed counts). -/
def receiveSignals (tr : ℕ → Bool) (pos : ℕ) (result : List ℕ) : Option (List ℕ × ℕ) :=
  receiveSignalsLoop tr 40 0 pos result

/-- Modelled from the spec: the sensor-variant decoder (§4.8).  The
`DeviceType` values and their `extractData` implementations are referenced
by `src/dht/thermometer.go` but declared in files that are not under `src/`;
only the single-operation capability shape is needed here. -/
structure DeviceType where
  extractData : List ℕ → ℤ × ℕ

/-- The mutable fields of the `device` struct of `src/dht/thermometer.go`
(`initialized`, `temperature`, `humidity`; the pin and the variant selector
are passed separately so that state equality stays decidable). -/
structure DeviceState where
  initialized : Bool
  temperature : ℤ
  humidity : ℕ
  deriving DecidableEq, Repr

/-- `device.read` of `src/dht/thermometer.go`: handshake, transmission wait,
signal reception into a fresh 80-slice, bit decode into a fresh 5-byte
buffer, checksum validation, then variant decode into the stored fields.
`initiateCommunication` only writes the pin, so it consumes no reads. -/
def deviceRead (dt : DeviceType) (tr : ℕ → Bool) (pos : ℕ) (d : DeviceState) :
    Option (DeviceState × Except DhtError Unit) :=
  match waitForDataTransmission tr pos with
  | .error e => some (d, .error e)
  | .ok p1 =>
    match receiveSignals tr p1 (List.replicate 80 0) with
    | none => none
    | some (signals, _) =>
      match extractData signals (List.replicate 5 0) with
      | none => none
      | some (.error e) => some (d, .error e)
      | some (.ok buf) =>
        if !isValid buf then some (d, .error .ChecksumError)
        else
          let th := dt.extractData buf
          some ({ d with temperature := th.1, humidity := th.2 }, .ok ())

/-- `powerUp` of `src/unnamed/part_000`: read the pin once and return the
observed state (the drive-high-and-settle branch only writes the pin). -/
def powerUp (tr : ℕ → Bool) (pos : ℕ) : Bool × ℕ := (tr pos, pos + 1)

/-- `device.Measurements` of `src/dht/thermometer.go`, exactly as written:
the named returns `temperature`/`humidity` start at their zero values, and
only the `err != nil` branch copies the stored fields into them and sets
`t.initialized = true`. -/
def Measurements (dt : DeviceType) (tr : ℕ → Bool) (pos : ℕ) (d : DeviceState) :
    Option (DeviceState × ℤ × ℕ × Except DhtError Unit) :=
  let st := powerUp tr pos
  match deviceRead dt tr st.2 d with
  | none => none
  | some (d', .error e) =>
    some ({ d' with initialized := true }, d'.temperature, d'.humidity, .error e)
  | some (d', .ok ()) => some (d', 0, 0, .ok ())

/-- `device.Temperature` of `src/dht/thermometer.go`. -/
def Temperature (d : DeviceState) : Except DhtError ℤ :=
  if !d.initialized then .error .UninitializedDataError else .ok d.temperature

/-- `device.Humidity` of `src/dht/thermometer.go`. -/
def Humidity (d : DeviceState) : Except DhtError ℕ :=
  if !d.initialized then .error .UninitializedDataError else .ok d.humidity

/-- Modelled from the spec: a temperature-scale conversion policy (§4.9);
`convertToFloat` is declared in a file that is not under `src/`, and the
float is modelled as `ℚ`. -/
structure TemperatureScale where
  convertToFloat : ℤ → ℚ

/-- `device.TemperatureFloat` of `src/dht/thermometer.go`. -/
def TemperatureFloat (d : DeviceState) (scale : TemperatureScale) : Except DhtError ℚ :=
  if !d.initialized then .error .UninitializedDataError
  else .ok (scale.convertToFloat d.temperature)

/-- `device.HumidityFloat` of `src/dht/thermometer.go` (float32 division by
10 modelled as exact division in `ℚ`). -/
def HumidityFloat (d : DeviceState) : Except DhtError ℚ :=
  if !d.initialized then .error .UninitializedDataError
  else .ok ((d.humidity : ℚ) / 10)

/-- A pin trace whose level alternates every sample: the handshake succeeds
immediately and all 40 bit pairs read (low = 0, high = 0), decoding to the
all-zero buffer, whose checksum validates — a successful full read cycle. -/
def demoTrace (n : ℕ) : Bool := decide (n % 2 = 1)

/-- A pin trace that answers the three handshake transitions and then holds
the line low forever: the transmission wait succeeds but every low-phase
sample of the payload times out. -/
def stuckTrace (n : ℕ) : Bool := decide (n = 0 ∨ n = 2)

/-- A concrete variant decoder for the evaluation theorems: it always
decodes to temperature 37 and humidity 42 (tenths). -/
def dtDemo : DeviceType := ⟨fun _ => (37, 42)⟩

/-- The signals `receiveSignals` samples from `stuckTrace`: every low phase
times out, every high phase returns 0. -/
def sigStuck : List ℕ := (List.replicate 40 ([timeout, 0] : List ℕ)).flatten

/-- C8: the transmission wait performs exactly three successive
pulse-sampler waits — departure from high, then from low, then from high,
each started where the previous one stopped — and fails with
`NoSignalError` iff at least one of the three returns the timeout ceiling;
otherwise it succeeds. -/
theorem waitForDataTransmission_spec (tr : ℕ → Bool) (pos : ℕ) :
    waitForDataTransmission tr pos =
      (let r1 := expectChange tr pos true
       let p1 := pos + r1 + 1
       let r2 := expectChange tr p1 false
       let p2 := p1 + r2 + 1
       let r3 := expectChange tr p2 true
       if r1 = timeout ∨ r2 = timeout ∨ r3 = timeout then .error .NoSignalError
       else .ok (p2 + r3 + 1)) := by
  unfold waitForDataTransmission
  by_cases h1 : expectChange tr pos true = timeout
  · simp [h1]
  · by_cases h2 : expectChange tr (pos + expectChange tr pos true + 1) false = timeout
    · simp [h1, h2]
    · by_cases h3 : expectChange tr
          (pos + expectChange tr pos true + 1 +
            expectChange tr (pos + expectChange tr pos true + 1) false + 1) true = timeout
      · simp [h1, h2, h3]
      · simp [h1, h2, h3]

theorem receiveSignalsLoop_isSome (tr : ℕ → Bool) :
    ∀ fuel i pos result, fuel + i = 40 → result.length = 80 →
      receiveSignalsLoop tr fuel i pos result ≠ none := by
  intro fuel
  induction fuel with
  | zero =>
    intro i pos result hi hlen
    simp [receiveSignalsLoop]
  | succ fuel ih =>
    intro i pos result hi hlen
    have hi39 : i ≤ 39 := by omega
    unfold receiveSignalsLoop
    rw [if_pos (by omega), if_pos (by rw [List.length_set]; omega)]
    exact ih (i + 1) _ _ (by omega) (by rw [List.length_set, List.length_set]; exact hlen)

/-- C10: in signal reception and bit decoding every array access is in
bounds: receiving into the fresh 80-slot slice never faults, and decoding
any 80-entry sample into any 5-byte buffer never faults (for each loop index
`i < 40` the signal indices `2 i` and `2 i + 1` are below 80 and the byte
index `i / 8` is below 5). -/
theorem decode_reception_inbounds :
    (∀ (tr : ℕ → Bool) (pos : ℕ), receiveSignals tr pos (List.replicate 80 0) ≠ none)
    ∧ (∀ signals buf : List ℕ, signals.length = 80 → buf.length = 5 →
        extractData signals buf ≠ none) := by
  constructor
  · intro tr pos
    exact receiveSignalsLoop_isSome tr 40 0 pos _ (by omega) (by simp)
  · intro signals buf h80 h5
    exact extractDataLoop_isSome signals h80 40 0 buf (by omega) h5

theorem decode_reception_inbounds_witness :
    (List.replicate 80 (1 : ℕ)).length = 80 ∧ (List.replicate 5 (0 : ℕ)).length = 5
    ∧ extractData (List.replicate 80 1) (List.replicate 5 0) ≠ none
    ∧ receiveSignals demoTrace 4 (List.replicate 80 0) ≠ none :=
  ⟨by decide, by decide,
    decode_reception_inbounds.2 (List.replicate 80 1) (List.replicate 5 0)
      (by decide) (by decide),
    decode_reception_inbounds.1 demoTrace 4⟩

/-- C6: a pulse sequence containing the timeout sentinel makes bit decoding
fail with `NoDataError`; and whenever decoding fails, `read` surfaces that
error with the device state untouched — the partially-built buffer reaches
neither checksum validation nor variant extraction (the conclusion holds
for every variant decoder `dt` alike). -/
theorem timeout_sentinel_noData :
    (∀ signals : List ℕ, signals.length = 80 →
      (∃ k, k < 80 ∧ signals.getD k 0 = timeout) →
      extractData signals (List.replicate 5 0) = some (.error .NoDataError))
    ∧ (∀ (dt : DeviceType) (tr : ℕ → Bool) (pos : ℕ) (d : DeviceState)
        (p1 : ℕ) (signals : List ℕ) (pos2 : ℕ) (e : DhtError),
        waitForDataTransmission tr pos = .ok p1 →
        receiveSignals tr p1 (List.replicate 80 0) = some (signals, pos2) →
        extractData signals (List.replicate 5 0) = some (.error e) →
        deviceRead dt tr pos d = some (d, .error e)) := by
  constructor
  · rintro signals h80 ⟨k, hk, hkto⟩
    exact extractDataLoop_noData signals h80 40 0 _ (by omega) (by simp)
      ⟨k, by omega, hk, hkto⟩
  · intro dt tr pos d p1 signals pos2 e hw hr he
    simp only [deviceRead, hw, hr, he]

set_option maxRecDepth 20000 in
theorem timeout_sentinel_noData_witness :
    ((List.replicate 80 timeout).length = 80
      ∧ (0 < 80 ∧ (List.replicate 80 timeout).getD 0 0 = timeout)
      ∧ extractData (List.replicate 80 timeout) (List.replicate 5 0) =
          some (.error .NoDataError))
    ∧ (waitForDataTransmission stuckTrace 1 = .ok 4
      ∧ receiveSignals stuckTrace 4 (List.replicate 80 0) = some (sigStuck, 4084)
      ∧ extractData sigStuck (List.replicate 5 0) = some (.error .NoDataError)
      ∧ deviceRead dtDemo stuckTrace 1 ⟨false, 7, 9⟩ =
          some (⟨false, 7, 9⟩, .error .NoDataError)) :=
  ⟨⟨by decide, ⟨by decide, by decide⟩,
      timeout_sentinel_noData.1 (List.replicate 80 timeout) (by decide)
        ⟨0, by decide, by decide⟩⟩,
    by decide, by decide, by decide,
    timeout_sentinel_noData.2 dtDemo stuckTrace 1 ⟨false, 7, 9⟩ 4 sigStuck 4084
      .NoDataError (by decide) (by decide) (by decide)⟩

/-- C3: every failing read leaves the stored temperature and humidity
exactly as they were before the call — an invalid or incomplete buffer never
updates device state. -/
theorem read_error_preserves (dt : DeviceType) (tr : ℕ → Bool) (pos : ℕ)
    (d d' : DeviceState) (e : DhtError)
    (h : deviceRead dt tr pos d = some (d', .error e)) :
    d'.temperature = d.temperature ∧ d'.humidity = d.humidity := by
  unfold deviceRead at h
  split at h
  · simp only [Option.some.injEq, Prod.mk.injEq] at h
    rw [← h.1]
    exact ⟨rfl, rfl⟩
  · split at h
    · exact absurd h (by simp)
    · split at h
      · exact absurd h (by simp)
      · simp only [Option.some.injEq, Prod.mk.injEq] at h
        rw [← h.1]
        exact ⟨rfl, rfl⟩
      · split at h
        · simp only [Option.some.injEq, Prod.mk.injEq] at h
          rw [← h.1]
          exact ⟨rfl, rfl⟩
        · simp only [Option.some.injEq, Prod.mk.injEq] at h
          exact absurd h.2 (by simp)

theorem read_error_preserves_witness :
    deviceRead dtDemo stuckTrace 1 ⟨false, 7, 9⟩ = some (⟨false, 7, 9⟩, .error .NoDataError)
    ∧ ((⟨false, 7, 9⟩ : DeviceState).temperature = (⟨false, 7, 9⟩ : DeviceState).temperature
      ∧ (⟨false, 7, 9⟩ : DeviceState).humidity = (⟨false, 7, 9⟩ : DeviceState).humidity) :=
  ⟨by decide,
    read_error_preserves dtDemo stuckTrace 1 ⟨false, 7, 9⟩ ⟨false, 7, 9⟩ .NoDataError
      (by decide)⟩

/-- C1 is refuted by the code as written: on `demoTrace` the full read cycle
succeeds (`Measurements` returns a nil error, and the decoded values are
stored), yet the device's `initialized` flag stays `false`, because
`Measurements` sets the flag only inside its `err != nil` branch. -/
theorem measurements_success_leaves_flag_clear :
    Measurements dtDemo demoTrace 0 ⟨false, 0, 0⟩ =
      some (⟨false, 37, 42⟩, 0, 0, .ok ()) := by decide

/-- C2 is refuted by the code as written: on `demoTrace` the read succeeds
and stores temperature 37 and humidity 42, yet `Measurements` returns the
zero-valued named returns `(0, 0)` — the stored values are copied into the
returns only inside the `err != nil` branch. -/
theorem measurements_success_returns_zeros :
    Measurements dtDemo demoTrace 0 ⟨false, 0, 0⟩ =
      some (⟨false, 37, 42⟩, 0, 0, .ok ())
    ∧ ((0 : ℤ), (0 : ℕ)) ≠ ((⟨false, 37, 42⟩ : DeviceState).temperature,
        (⟨false, 37, 42⟩ : DeviceState).humidity) :=
  ⟨by decide, by decide⟩

/-- C7 is refuted by the code as written: after one FAILED `Measurements`
call (no call ever returned a nil error) the flag is `true` and all four
accessors succeed instead of failing with `UninitializedDataError`; and
after one SUCCESSFUL read the flag is still `false`, so `Temperature` fails
although a successful read completed. -/
theorem accessor_gating_inverted :
    Measurements dtDemo stuckTrace 0 ⟨false, 0, 0⟩ =
      some (⟨true, 0, 0⟩, 0, 0, .error .NoDataError)
    ∧ Temperature ⟨true, 0, 0⟩ = .ok 0
    ∧ Humidity ⟨true, 0, 0⟩ = .ok 0
    ∧ TemperatureFloat ⟨true, 0, 0⟩ ⟨fun t => (t : ℚ) / 10⟩ = .ok 0
    ∧ HumidityFloat ⟨true, 0, 0⟩ = .ok 0
    ∧ Measurements dtDemo demoTrace 0 ⟨false, 0, 0⟩ =
        some (⟨false, 37, 42⟩, 0, 0, .ok ())
    ∧ Temperature ⟨false, 37, 42⟩ = .error .UninitializedDataError := by
  refine ⟨by decide, by decide, by decide, ?_, ?_, by decide, by decide⟩
  · unfold TemperatureFloat
    norm_num
  · unfold HumidityFloat
    norm_num

end Dht
